import Mathlib

/-!
Shallow embedding of `syncly.py` (storage-pool engine): the upload planner
(`upload_file`), the chunk loop with quota handling, the metadata store
(load / append of FileRecord entries), and the two download paths
(`download_using_metadata` and the pool-wide fallback scan
`download_from_all_buckets`).

Modelling conventions:
- A backend ("bucket") is identified by a `String`.  Its capacity snapshot is
  the signed free-byte count `free = limit - usage` computed by
  `check_storage`; the snapshot list passed to `upload_file` is the
  `(bucket, free)` list built at the top of the Python function.
- The true remaining capacity of each backend (which decides whether a remote
  write succeeds or raises a quota error, and which the snapshot may
  overstate) is a separate association list `actual`.
- Remote object ids returned by the Drive API are opaque and fresh; they are
  modelled deterministically as `name ++ "@" ++ bucket`, which is injective
  for the distinct names one upload creates.
- File contents are `List Nat` (byte sequences); local file paths are the
  strings the Python code builds (`save_path ++ "/" ++ name`).
- Python string comparison (used by `sorted`) is lexicographic on code
  points; it is embedded as `charListLeb` on `String.data`.
-/

structure ChunkRec where
  chunk_name : String
  file_id : String
  bucket : String
deriving DecidableEq, Repr

structure FileRecord where
  file_name : String
  chunks : List ChunkRec
deriving DecidableEq, Repr

/-- The persisted metadata document (`metadata.json`), abstracted to the five
cases the code distinguishes: absent file, zero-byte file, syntactically
invalid JSON, valid JSON that is not a list, and a valid list of records. -/
inductive MDoc where
  | missing
  | emptyFile
  | corrupt
  | nonList (r : FileRecord)
  | records (l : List FileRecord)
deriving DecidableEq, Repr

/-- A remote object stored on one backend. -/
structure RObj where
  bucket : String
  id : String
  name : String
  content : List Nat
deriving DecidableEq, Repr

/-- Metadata load as performed at the end of `upload_file` (lines 251-262):
missing or empty file gives `[]`, a JSON parse error resets to `[]`, a
non-list JSON value is wrapped in a singleton list. -/
def loadMeta : MDoc → List FileRecord
  | .records l => l
  | .nonList r => [r]
  | _ => []

/-- Metadata rewrite at the end of `upload_file` (lines 264-267): append the
new record and dump the whole list. -/
def finishUpload (doc : MDoc) (fileName : String) (chunks : List ChunkRec) : MDoc :=
  .records (loadMeta doc ++ [⟨fileName, chunks⟩])

inductive Outcome where
  | success
  | insufficientPool
  | indexError
  | httpError
  | runtimeError
  | fuelExhausted
deriving DecidableEq, Repr

/-- Association-list lookup of a bucket's true remaining capacity. -/
def lookupCap (m : List (String × Nat)) (k : String) : Nat :=
  match m.find? (fun p => p.1 == k) with
  | some p => p.2
  | none => 0

/-- Decrease a bucket's true remaining capacity after a successful write. -/
def decCap (m : List (String × Nat)) (k : String) (n : Nat) : List (String × Nat) :=
  m.map (fun p => if p.1 == k then (p.1, p.2 - n) else p)

/-- Ascending comparison on the `(free, bucket)` pairs of the live
free-space table: `free_space.sort(reverse=False, key=lambda x: x[0])`. -/
def keyAsc (a b : Int × String) : Prop := a.1 ≤ b.1

/-- Descending comparison on `(free, bucket)` pairs:
`free_space.sort(reverse=True, key=lambda x: x[0])`. -/
def keyDesc (a b : Int × String) : Prop := b.1 ≤ a.1

instance : DecidableRel keyAsc := fun a b => Int.decLe a.1 b.1
instance : DecidableRel keyDesc := fun a b => Int.decLe b.1 a.1

instance : IsTotal (Int × String) keyAsc := ⟨fun a b => Int.le_total a.1 b.1⟩
instance : IsTrans (Int × String) keyAsc := ⟨fun _ _ _ h1 h2 => le_trans h1 h2⟩
instance : IsTotal (Int × String) keyDesc := ⟨fun a b => Int.le_total b.1 a.1⟩
instance : IsTrans (Int × String) keyDesc := ⟨fun _ _ _ h1 h2 => le_trans h2 h1⟩

def sortAsc (l : List (Int × String)) : List (Int × String) := List.insertionSort keyAsc l

def sortDesc (l : List (Int × String)) : List (Int × String) := List.insertionSort keyDesc l

/-- Python string `<=` (lexicographic on code points), on character lists. -/
def charListLeb : List Char → List Char → Bool
  | [], _ => true
  | _ :: _, [] => false
  | a :: as, b :: bs =>
    if a.toNat < b.toNat then true
    else if b.toNat < a.toNat then false
    else charListLeb as bs

/-- Python string `<=` on `String`. -/
def strLeb (a b : String) : Bool := charListLeb a.data b.data

/-- Comparison of `(path, content)` pairs by path, as `sorted(file_paths)`
compares the path strings in `merge_chunks`. -/
def pathLe (a b : String × List Nat) : Prop := strLeb a.1 b.1 = true

instance : DecidableRel pathLe := fun a b => instDecidableEqBool (strLeb a.1 b.1) true

/-- Comparison of remote objects by name, as `sorted(parts, key=lambda x:
x['name'])` in the fallback scan. -/
def nameLe (a b : RObj) : Prop := strLeb a.name b.name = true

instance : DecidableRel nameLe := fun a b => instDecidableEqBool (strLeb a.name b.name) true

/-- Python `p in s` substring test on character lists: some suffix of the
second list has the first list as a prefix. -/
def listPrefixB : List Char → List Char → Bool
  | [], _ => true
  | _ :: _, [] => false
  | a :: as, b :: bs => a == b && listPrefixB as bs

def listInfixB : List Char → List Char → Bool
  | p, [] => listPrefixB p []
  | p, b :: t => listPrefixB p (b :: t) || listInfixB p t

/-- Python `name contains pat` (the Drive query `name contains '...'`). -/
def strContains (s pat : String) : Bool := listInfixB pat.data s.data

/-- Selection of the chunk target (lines 202-208): scan the sorted table and
return the first entry with `free > 0`, split as
`table = before ++ selected :: after`. -/
def selectPos :
    List (Int × String) → Option (List (Int × String) × (Int × String) × List (Int × String))
  | [] => none
  | p :: rest =>
    if 0 < p.1 then some ([], p, rest)
    else
      match selectPos rest with
      | some (pre, q, post) => some (p :: pre, q, post)
      | none => none

/-- Result of the chunked-upload loop (lines 197-249).
`done` is normal exit (`offset >= file_size`);
`noBucket` is the `break` at lines 210-212 (no entry with `free > 0`);
`quotaAbort` is the quota-exhaustion path (lines 227-237): the backend's
live entry is set to `0`, the inner retry loop is left with `file_id` still
`None`, and `raise RuntimeError` aborts the whole upload. -/
inductive LoopRes where
  | done (written : List RObj) (chunks : List ChunkRec)
  | noBucket (written : List RObj) (chunks : List ChunkRec)
  | quotaAbort (written : List RObj)
  | outOfFuel
deriving DecidableEq, Repr

/-- The chunked-upload loop of `upload_file` (lines 194-249).  State:
`actual` true capacities, `fs` the live free-space table, `offset` bytes
already placed, `ci` the next chunk index, `written` remote objects created
so far, `chunks` the ChunkRecords accumulated in `metadata["chunks"]`.
`fuel` only bounds the recursion; every executed iteration places at least
one byte, so `content.length + 1` is always sufficient. -/
def chunkLoop (fileName : String) (content : List Nat) :
    Nat → List (String × Nat) → List (Int × String) → Nat → Nat →
    List RObj → List ChunkRec → LoopRes
  | 0, _, _, _, _, _, _ => .outOfFuel
  | fuel + 1, actual, fs, offset, ci, written, chunks =>
    if content.length ≤ offset then .done written chunks
    else
      match selectPos (sortAsc fs) with
      | none => .noBucket written chunks
      | some (pre, sel, post) =>
        let csize := min sel.1.toNat (content.length - offset)
        if csize ≤ lookupCap actual sel.2 then
          let cname := fileName ++ "_part" ++ Nat.repr (ci + 1)
          let cid := cname ++ "@" ++ sel.2
          chunkLoop fileName content fuel (decCap actual sel.2 csize)
            (pre ++ (sel.1 - (csize : Int), sel.2) :: post)
            (offset + csize) (ci + 1)
            (written ++ [⟨sel.2, cid, cname, (content.drop offset).take csize⟩])
            (chunks ++ [⟨cname, cid, sel.2⟩])
        else .quotaAbort written

/-- `upload_file(file_path, file_name, mimetype)` (lines 164-268), with the
capacity snapshots `snaps = [(bucket, limit - usage), ...]` and the true
remaining capacities `actual` made explicit.  Returns the outcome together
with the remote store and metadata document after the call. -/
def upload_file (snaps : List (String × Int)) (actual : List (String × Nat))
    (remote : List RObj) (doc : MDoc) (content : List Nat) (fileName : String) :
    Outcome × List RObj × MDoc :=
  let fileSize := content.length
  let freeSpace := (snaps.filter (fun p => decide (0 < p.2))).map (fun p => (p.2, p.1))
  let totalFree := (snaps.map (fun p => p.2)).sum
  if totalFree < (fileSize : Int) then (.insufficientPool, remote, doc)
  else
    match sortDesc freeSpace with
    | [] => (.indexError, remote, doc)
    | best :: restSorted =>
      if (fileSize : Int) ≤ best.1 then
        if fileSize ≤ lookupCap actual best.2 then
          (.success, remote ++ [⟨best.2, fileName ++ "@" ++ best.2, fileName, content⟩],
            finishUpload doc fileName [⟨fileName, fileName ++ "@" ++ best.2, best.2⟩])
        else (.httpError, remote, doc)
      else
        match chunkLoop fileName content (fileSize + 1) actual (best :: restSorted) 0 0 [] [] with
        | .done written chunks =>
          (.success, remote ++ written, finishUpload doc fileName chunks)
        | .noBucket written chunks =>
          (.success, remote ++ written, finishUpload doc fileName chunks)
        | .quotaAbort written => (.runtimeError, remote ++ written, doc)
        | .outOfFuel => (.fuelExhausted, remote, doc)

/-- `download_file(service, file_id, save_path)` (lines 272-287): fetch the
object with the given id from the given bucket, save it under its remote
name, and return the saved path (with its content); `none` models the
`except` branch returning `None`. -/
def download_file (remote : List RObj) (bucket fid savePath : String) :
    Option (String × List Nat) :=
  match remote.find? (fun o => o.bucket == bucket && o.id == fid) with
  | some o => some (savePath ++ "/" ++ o.name, o.content)
  | none => none

/-- `merge_chunks(file_paths, merged_file_path)` (lines 291-296): sort the
chunk files by path and concatenate their contents. -/
def merge_chunks (pairs : List (String × List Nat)) : List Nat :=
  ((List.insertionSort pathLe pairs).map (fun p => p.2)).flatten

inductive DlRes where
  | metadataMissing
  | crash
  | notFound
  | chunkFailed
  | ok (path : String) (content : List Nat)
deriving DecidableEq, Repr

/-- The per-chunk download loop of `download_using_metadata` (lines
320-328): fetch every chunk, collecting `(path, content)` pairs, failing as
a whole if any chunk fetch fails. -/
def downloadChunksLoop (remote : List RObj) (savePath : String) :
    List ChunkRec → List (String × List Nat) → Option (List (String × List Nat))
  | [], acc => some acc
  | c :: rest, acc =>
    match download_file remote c.bucket c.file_id savePath with
    | some pc => downloadChunksLoop remote savePath rest (acc ++ [pc])
    | none => none

/-- `download_using_metadata(file_name, save_path)` (lines 300-333).  The
lookup takes the first record whose `file_name` matches; a single chunk
named exactly like the file is streamed directly; otherwise all chunks are
fetched and merged (`merge_chunks(sorted(chunk_paths), ...)`).  An empty,
corrupt or non-list document makes the bare `json.load` / record iteration
raise, modelled as `crash`. -/
def download_using_metadata (remote : List RObj) (doc : MDoc)
    (fileName savePath : String) : DlRes :=
  match doc with
  | .missing => .metadataMissing
  | .emptyFile => .crash
  | .corrupt => .crash
  | .nonList _ => .crash
  | .records l =>
    match l.find? (fun md => md.file_name == fileName) with
    | none => .notFound
    | some md =>
      match md.chunks with
      | [c] =>
        if c.chunk_name == fileName then
          match download_file remote c.bucket c.file_id savePath with
          | some pc => .ok pc.1 pc.2
          | none => .chunkFailed
        else
          match downloadChunksLoop remote savePath [c] [] with
          | none => .chunkFailed
          | some pairs => .ok (savePath ++ "/" ++ fileName) (merge_chunks pairs)
      | cs =>
        match downloadChunksLoop remote savePath cs [] with
        | none => .chunkFailed
        | some pairs => .ok (savePath ++ "/" ++ fileName) (merge_chunks pairs)

/-- Objects of one bucket matching `name = 'file_name'` (line 354). -/
def listExact (remote : List RObj) (bucket fileName : String) : List RObj :=
  remote.filter (fun o => o.bucket == bucket && o.name == fileName)

/-- Objects of one bucket matching `name contains 'file_name_part'`
(line 360). -/
def listParts (remote : List RObj) (bucket fileName : String) : List RObj :=
  remote.filter (fun o => o.bucket == bucket && strContains o.name (fileName ++ "_part"))

/-- The per-bucket fallback scan of `download_from_all_buckets` (lines
352-375): for each bucket, first an exact-name hit is downloaded and the
function returns; otherwise the bucket's part-name matches are sorted by
name, downloaded, merged and the function returns; a bucket with no matches
(or whose part downloads all fail) falls through to the next bucket. -/
def scanBuckets (remote : List RObj) (fileName savePath : String) :
    List String → DlRes
  | [] => .notFound
  | b :: rest =>
    match listExact remote b fileName with
    | o :: _ =>
      match download_file remote b o.id savePath with
      | some pc => .ok pc.1 pc.2
      | none => .chunkFailed
    | [] =>
      match listParts remote b fileName with
      | [] => scanBuckets remote fileName savePath rest
      | parts =>
        match (List.insertionSort nameLe parts).filterMap
            (fun o => download_file remote b o.id savePath) with
        | [] => scanBuckets remote fileName savePath rest
        | pairs => .ok (savePath ++ "/" ++ fileName) (merge_chunks pairs)

/-- `download_from_all_buckets(file_name, save_path)` (lines 337-375): if
the metadata document parses to a list containing a record for the name,
delegate to `download_using_metadata`; a missing, empty or corrupt document
falls through to the scan (the `json.JSONDecodeError` handler); a valid
non-list document makes the record iteration raise, modelled as `crash`. -/
def download_from_all_buckets (buckets : List String) (remote : List RObj)
    (doc : MDoc) (fileName savePath : String) : DlRes :=
  match doc with
  | .records l =>
    if l.any (fun md => md.file_name == fileName) then
      download_using_metadata remote doc fileName savePath
    else scanBuckets remote fileName savePath buckets
  | .nonList _ => .crash
  | _ => scanBuckets remote fileName savePath buckets

/-- C1: the round-trip property fails on the code.  Ten backends with one
free byte each force ten chunks; no single backend fits the 10-byte file
but the pool does, the upload succeeds, yet the download reassembles the
chunk files in lexicographic path order (`f_part1, f_part10, f_part2, ...`),
so the downloaded bytes are a permutation of the original, not equal to it. -/
theorem c1_roundtrip_fails_for_ten_chunks :
    (upload_file
        [("b1",1),("b2",1),("b3",1),("b4",1),("b5",1),("b6",1),("b7",1),("b8",1),("b9",1),("b10",1)]
        [("b1",1),("b2",1),("b3",1),("b4",1),("b5",1),("b6",1),("b7",1),("b8",1),("b9",1),("b10",1)]
        [] MDoc.missing [0,1,2,3,4,5,6,7,8,9] "f").1 = Outcome.success ∧
    download_using_metadata
        (upload_file
          [("b1",1),("b2",1),("b3",1),("b4",1),("b5",1),("b6",1),("b7",1),("b8",1),("b9",1),("b10",1)]
          [("b1",1),("b2",1),("b3",1),("b4",1),("b5",1),("b6",1),("b7",1),("b8",1),("b9",1),("b10",1)]
          [] MDoc.missing [0,1,2,3,4,5,6,7,8,9] "f").2.1
        (upload_file
          [("b1",1),("b2",1),("b3",1),("b4",1),("b5",1),("b6",1),("b7",1),("b8",1),("b9",1),("b10",1)]
          [("b1",1),("b2",1),("b3",1),("b4",1),("b5",1),("b6",1),("b7",1),("b8",1),("b9",1),("b10",1)]
          [] MDoc.missing [0,1,2,3,4,5,6,7,8,9] "f").2.2 "f" "d"
      = DlRes.ok "d/f" [0,9,1,2,3,4,5,6,7,8] ∧
    ([0,9,1,2,3,4,5,6,7,8] : List Nat) ≠ [0,1,2,3,4,5,6,7,8,9] := by decide

/-- C2: reassembly of an 11-chunk file is in lexicographic chunk-name
order, not numeric order.  Eleven backends with one free byte each produce
the FileRecord `g_part1 ... g_part11` (11 chunks); the download merges the
chunk files sorted as strings, yielding the part contents in the order
`1, 10, 11, 2, ..., 9` instead of `1, 2, ..., 11`. -/
theorem c2_eleven_chunk_merge_is_lexicographic :
    (match (upload_file
        [("a1",1),("a2",1),("a3",1),("a4",1),("a5",1),("a6",1),("a7",1),("a8",1),("a9",1),("a10",1),("a11",1)]
        [("a1",1),("a2",1),("a3",1),("a4",1),("a5",1),("a6",1),("a7",1),("a8",1),("a9",1),("a10",1),("a11",1)]
        [] MDoc.missing [1,2,3,4,5,6,7,8,9,10,11] "g").2.2 with
      | MDoc.records [r] => r.chunks.length
      | _ => 0) = 11 ∧
    download_using_metadata
        (upload_file
          [("a1",1),("a2",1),("a3",1),("a4",1),("a5",1),("a6",1),("a7",1),("a8",1),("a9",1),("a10",1),("a11",1)]
          [("a1",1),("a2",1),("a3",1),("a4",1),("a5",1),("a6",1),("a7",1),("a8",1),("a9",1),("a10",1),("a11",1)]
          [] MDoc.missing [1,2,3,4,5,6,7,8,9,10,11] "g").2.1
        (upload_file
          [("a1",1),("a2",1),("a3",1),("a4",1),("a5",1),("a6",1),("a7",1),("a8",1),("a9",1),("a10",1),("a11",1)]
          [("a1",1),("a2",1),("a3",1),("a4",1),("a5",1),("a6",1),("a7",1),("a8",1),("a9",1),("a10",1),("a11",1)]
          [] MDoc.missing [1,2,3,4,5,6,7,8,9,10,11] "g").2.2 "g" "d"
      = DlRes.ok "d/g" [1,10,11,2,3,4,5,6,7,8,9] ∧
    ([1,10,11,2,3,4,5,6,7,8,9] : List Nat) ≠ [1,2,3,4,5,6,7,8,9,10,11] := by decide

/-- C3: when the summed free bytes of all backends are strictly below the
file size, `upload_file` returns at the pre-flight check with the
insufficient-pool outcome, writing no remote object and leaving the
metadata document unchanged. -/
theorem c3_preflight_guarantee (snaps : List (String × Int)) (actual : List (String × Nat))
    (remote : List RObj) (doc : MDoc) (content : List Nat) (fileName : String)
    (h : (snaps.map (fun p => p.2)).sum < (content.length : Int)) :
    upload_file snaps actual remote doc content fileName
      = (Outcome.insufficientPool, remote, doc) := by
  simp only [upload_file]
  rw [if_pos h]

/-- C3 witness: one backend with 3 free bytes cannot host a 4-byte file. -/
theorem c3_preflight_guarantee_witness :
    upload_file [("x",3)] [("x",3)] [] MDoc.missing [0,0,0,0] "f"
      = (Outcome.insufficientPool, [], MDoc.missing) :=
  c3_preflight_guarantee _ _ _ _ _ _ (by decide)

/-- C4: a quota-exhaustion failure during a chunk write does not fail over.
Backends x1 (10 free), x2 (6 free), x3 (reported 3 free but actually full);
the 12-byte file enters the chunked path, the first chunk targets x3 and is
rejected for quota; the code marks x3 as full and then raises
`RuntimeError`, aborting the upload with no metadata entry, even though x1
and x2 jointly hold 16 free bytes for all 12 remaining bytes. -/
theorem c4_quota_failure_aborts_upload :
    upload_file [("x1",10),("x2",6),("x3",3)] [("x1",10),("x2",6),("x3",0)]
        [] MDoc.missing [0,0,0,0,0,0,0,0,0,0,0,0] "h"
      = (Outcome.runtimeError, [], MDoc.missing) := by decide

/-- C5: at a chunk-loop state where no live entry has positive free space
and 5 of 10 bytes remain unplaced (one chunk already written), the loop
exits through the `break` branch, and the subsequent metadata stage appends
a FileRecord containing exactly the already-written chunk — the partial
upload is recorded, not left out of the metadata. -/
theorem c5_partial_record_appended :
    chunkLoop "f" [0,0,0,0,0,0,0,0,0,0] 6 [("b2", 0)] [(0, "b2")] 5 1
        [⟨"b1","f_part1@b1","f_part1",[0,0,0,0,0]⟩] [⟨"f_part1","f_part1@b1","b1"⟩]
      = LoopRes.noBucket [⟨"b1","f_part1@b1","f_part1",[0,0,0,0,0]⟩]
          [⟨"f_part1","f_part1@b1","b1"⟩] ∧
    finishUpload MDoc.missing "f" [⟨"f_part1","f_part1@b1","b1"⟩]
      = MDoc.records [⟨"f", [⟨"f_part1","f_part1@b1","b1"⟩]⟩] := by decide

/-- C7 counterexample: a zero-byte file with a single backend reporting 0
free bytes satisfies the claim's premise (some backend's free space is at
least the file size), yet the upload hits the empty candidate list and
raises `IndexError` instead of writing a single remote object. -/
theorem c7_counterexample :
    (∃ p ∈ [(("x" : String), (0 : Int))], ((List.length ([] : List Nat) : Int)) ≤ p.2) ∧
    upload_file [("x",0)] [("x",0)] [] MDoc.missing [] "f"
      = (Outcome.indexError, [], MDoc.missing) := by decide

/-- C9 counterexample: chunks `f_part1` on bucket u and `f_part2` on bucket
v, no metadata record; the fallback scan returns after bucket u with only
`[1]`, not the full reassembled `[1, 2]`. -/
theorem c9_counterexample :
    download_from_all_buckets ["u","v"]
        [⟨"u","p1","f_part1",[1]⟩, ⟨"v","p2","f_part2",[2]⟩]
        MDoc.missing "f" "d" = DlRes.ok "d/f" [1] ∧
    ([1] : List Nat) ≠ [1,2] := by decide

/-- C10 counterexample: with a single backend reporting -1 free bytes
(usage above limit), every backend reports free space at most 0, but the
zero-byte upload fails the pre-flight sum check (-1 < 0) and returns the
insufficient-pool outcome rather than raising `IndexError`. -/
theorem c10_counterexample :
    (∀ p ∈ [(("x" : String), (-1 : Int))], p.2 ≤ 0) ∧
    upload_file [("x",-1)] [("x",0)] [] MDoc.missing [] "f"
      = (Outcome.insufficientPool, [], MDoc.missing) ∧
    Outcome.insufficientPool ≠ Outcome.indexError := by decide

/-- C10 (amended): a zero-byte upload while every backend reports exactly 0
free bytes passes the pre-flight check (0 is not below 0), leaves the
positive-free candidate list empty, and stops with the `IndexError` outcome
of `free_space[0]`, touching neither the remote store nor the metadata. -/
theorem c10_zero_file_zero_pool (snaps : List (String × Int)) (actual : List (String × Nat))
    (remote : List RObj) (doc : MDoc) (fileName : String)
    (h : ∀ p ∈ snaps, p.2 = (0 : Int)) :
    upload_file snaps actual remote doc [] fileName = (Outcome.indexError, remote, doc) := by
  have hsum : (snaps.map (fun p => p.2)).sum = 0 := by
    refine List.sum_eq_zero ?_
    intro x hx
    obtain ⟨p, hp, rfl⟩ := List.mem_map.mp hx
    exact h p hp
  have hfil : snaps.filter (fun p => decide (0 < p.2)) = [] := by
    rw [List.filter_eq_nil_iff]
    intro p hp
    simp [h p hp]
  simp only [upload_file, hfil, hsum, List.length_nil, List.map_nil]
  norm_num [sortDesc, List.insertionSort]

/-- C10 witness: one backend with exactly 0 free bytes and a zero-byte file. -/
theorem c10_zero_file_zero_pool_witness :
    upload_file [("x",0)] [("x",0)] [] MDoc.missing [] "f"
      = (Outcome.indexError, [], MDoc.missing) :=
  c10_zero_file_zero_pool _ _ _ _ _ (by decide)

/-- Appending to a metadata document that loaded as empty yields exactly the
one new record. -/
theorem finishUpload_of_empty_load (doc : MDoc) (fileName : String) (chunks : List ChunkRec)
    (hload : loadMeta doc = []) :
    finishUpload doc fileName chunks = MDoc.records [⟨fileName, chunks⟩] := by
  simp [finishUpload, hload]

/-- C8: a missing, empty or syntactically invalid metadata document loads as
the empty record list, and any upload that completes successfully on top of
such a document persists a document containing exactly the new FileRecord. -/
theorem c8_corrupt_metadata_resilience (doc : MDoc)
    (hdoc : doc = MDoc.missing ∨ doc = MDoc.emptyFile ∨ doc = MDoc.corrupt) :
    loadMeta doc = [] ∧
    ∀ (snaps : List (String × Int)) (actual : List (String × Nat)) (remote : List RObj)
      (content : List Nat) (fileName : String) (rem : List RObj) (doc2 : MDoc),
      upload_file snaps actual remote doc content fileName = (Outcome.success, rem, doc2) →
      ∃ chunks, doc2 = MDoc.records [⟨fileName, chunks⟩] := by
  have hload : loadMeta doc = [] := by rcases hdoc with h | h | h <;> subst h <;> rfl
  refine ⟨hload, ?_⟩
  intro snaps actual remote content fileName rem doc2 h
  simp only [upload_file] at h
  split at h
  · simp at h
  · split at h
    · simp at h
    · split at h
      · split at h
        · simp only [Prod.mk.injEq] at h
          exact ⟨_, h.2.2.symm.trans (finishUpload_of_empty_load doc fileName _ hload)⟩
        · simp at h
      · split at h
        · simp only [Prod.mk.injEq] at h
          exact ⟨_, h.2.2.symm.trans (finishUpload_of_empty_load doc fileName _ hload)⟩
        · simp only [Prod.mk.injEq] at h
          exact ⟨_, h.2.2.symm.trans (finishUpload_of_empty_load doc fileName _ hload)⟩
        · simp at h
        · simp at h

/-- C8 witness: uploading a 2-byte file over a corrupt document succeeds and
persists exactly the new record. -/
theorem c8_witness :
    loadMeta MDoc.corrupt = [] ∧
    ∃ chunks, (upload_file [("x",5)] [("x",5)] [] MDoc.corrupt [1,2] "f").2.2
      = MDoc.records [⟨"f", chunks⟩] := by
  have hc := c8_corrupt_metadata_resilience MDoc.corrupt (Or.inr (Or.inr rfl))
  refine ⟨hc.1, ?_⟩
  have hrun : upload_file [("x",5)] [("x",5)] [] MDoc.corrupt [1,2] "f"
      = (Outcome.success, [⟨"x","f@x","f",[1,2]⟩],
         MDoc.records [⟨"f",[⟨"f","f@x","x"⟩]⟩]) := by decide
  obtain ⟨chunks, hch⟩ := hc.2 [("x",5)] [("x",5)] [] [1,2] "f"
    [⟨"x","f@x","f",[1,2]⟩] (MDoc.records [⟨"f",[⟨"f","f@x","x"⟩]⟩]) hrun
  exact ⟨chunks, by rw [hrun]; exact hch⟩

/-- A filterMap collapses to a map when every element succeeds. -/
theorem filterMap_eq_map_of_mem {α β : Type} (f : α → Option β) (g : α → β) :
    ∀ l : List α, (∀ a ∈ l, f a = some (g a)) → l.filterMap f = l.map g
  | [], _ => rfl
  | a :: t, h => by
    rw [List.filterMap_cons, h a (List.mem_cons_self a t), List.map_cons,
      filterMap_eq_map_of_mem f g t (fun x hx => h x (List.mem_cons_of_mem a hx))]

/-- C9 (amended): the fallback scan stops at the first backend holding any
match.  If the first bucket has no exact-name object but a nonempty set of
part-name matches (all of which download successfully), the scan returns the
concatenation, in name-sorted order, of that bucket's parts only — parts
held by the remaining buckets never contribute. -/
theorem c9_first_matching_bucket_only (remote : List RObj) (fileName savePath b : String)
    (rest : List String)
    (hex : listExact remote b fileName = [])
    (hne : listParts remote b fileName ≠ [])
    (hfind : ∀ o ∈ listParts remote b fileName,
      remote.find? (fun x => x.bucket == b && x.id == o.id) = some o) :
    scanBuckets remote fileName savePath (b :: rest)
      = DlRes.ok (savePath ++ "/" ++ fileName)
          (merge_chunks ((List.insertionSort nameLe (listParts remote b fileName)).map
            (fun o => (savePath ++ "/" ++ o.name, o.content)))) := by
  have hfm : (List.insertionSort nameLe (listParts remote b fileName)).filterMap
        (fun o => download_file remote b o.id savePath)
      = (List.insertionSort nameLe (listParts remote b fileName)).map
          (fun o => (savePath ++ "/" ++ o.name, o.content)) := by
    refine filterMap_eq_map_of_mem _ _ _ ?_
    intro o ho
    have homem : o ∈ listParts remote b fileName :=
      (List.perm_insertionSort nameLe _).mem_iff.mp ho
    simp only [download_file, hfind o homem]
  cases hp : listParts remote b fileName with
  | nil => exact absurd hp hne
  | cons p ps =>
    rw [hp] at hfm
    have hlen : (List.insertionSort nameLe (p :: ps)).length = (p :: ps).length :=
      (List.perm_insertionSort nameLe (p :: ps)).length_eq
    simp only [scanBuckets, hex, hp, hfm]
    cases hs : List.insertionSort nameLe (p :: ps) with
    | nil => rw [hs] at hlen; simp at hlen
    | cons q qs => simp [hs]

/-- C9 witness: with `f_part1` on bucket u and `f_part2` on bucket v, the
scan over u then v returns only bucket u's part. -/
theorem c9_witness :
    scanBuckets [⟨"u","p1","f_part1",[1]⟩, ⟨"v","p2","f_part2",[2]⟩] "f" "d" ["u","v"]
      = DlRes.ok "d/f" [1] :=
  (c9_first_matching_bucket_only [⟨"u","p1","f_part1",[1]⟩, ⟨"v","p2","f_part2",[2]⟩]
    "f" "d" "u" ["v"] (by decide) (by decide) (by decide)).trans (by decide)

/-- C7 (amended): for a file of at least one byte, when some backend's
reported free space covers the whole file, no backend reports negative free
space, and no backend is actually fuller than reported, the upload takes the
whole-file fast path: it writes the file as a single remote object to a
backend whose reported free space is maximal among all backends, and appends
a FileRecord with exactly one ChunkRecord whose chunk name is the file name. -/
theorem c7_whole_file_fast_path (snaps : List (String × Int)) (actual : List (String × Nat))
    (remote : List RObj) (doc : MDoc) (content : List Nat) (fileName : String)
    (hsize : 1 ≤ content.length)
    (hfit : ∃ p ∈ snaps, (content.length : Int) ≤ p.2)
    (hnonneg : ∀ p ∈ snaps, (0 : Int) ≤ p.2)
    (honest : ∀ p ∈ snaps, p.2 ≤ (lookupCap actual p.1 : Int)) :
    ∃ b, (∃ q ∈ snaps, q.1 = b ∧ ∀ p ∈ snaps, p.2 ≤ q.2) ∧
      upload_file snaps actual remote doc content fileName
        = (Outcome.success,
           remote ++ [⟨b, fileName ++ "@" ++ b, fileName, content⟩],
           MDoc.records (loadMeta doc ++ [⟨fileName, [⟨fileName, fileName ++ "@" ++ b, b⟩]⟩])) := by
  obtain ⟨p0, hp0, hp0le⟩ := hfit
  have hlenpos : (0 : Int) < (content.length : Int) := by exact_mod_cast hsize
  have hp0pos : (0 : Int) < p0.2 := lt_of_lt_of_le hlenpos hp0le
  have hp0F : (p0.2, p0.1) ∈ (snaps.filter (fun p => decide (0 < p.2))).map (fun p => (p.2, p.1)) := by
    refine List.mem_map.mpr ⟨p0, ?_, rfl⟩
    exact List.mem_filter.mpr ⟨hp0, by simp [hp0pos]⟩
  have hperm := List.perm_insertionSort keyDesc
    ((snaps.filter (fun p => decide (0 < p.2))).map (fun p => (p.2, p.1)))
  have hp0S : (p0.2, p0.1) ∈ sortDesc ((snaps.filter (fun p => decide (0 < p.2))).map (fun p => (p.2, p.1))) := by
    rw [sortDesc]
    exact hperm.mem_iff.mpr hp0F
  cases hS : sortDesc ((snaps.filter (fun p => decide (0 < p.2))).map (fun p => (p.2, p.1))) with
  | nil => rw [hS] at hp0S; simp at hp0S
  | cons best restS =>
    have hsorted := List.sorted_insertionSort keyDesc
      ((snaps.filter (fun p => decide (0 < p.2))).map (fun p => (p.2, p.1)))
    rw [show List.insertionSort keyDesc ((snaps.filter (fun p => decide (0 < p.2))).map (fun p => (p.2, p.1))) = sortDesc ((snaps.filter (fun p => decide (0 < p.2))).map (fun p => (p.2, p.1))) from rfl, hS] at hsorted
    have hmax : ∀ x ∈ (snaps.filter (fun p => decide (0 < p.2))).map (fun p => (p.2, p.1)), x.1 ≤ best.1 := by
      intro x hx
      have hxS : x ∈ best :: restS := by
        rw [← hS, sortDesc]; exact hperm.mem_iff.mpr hx
      rcases List.mem_cons.mp hxS with h1 | h1
      · exact le_of_eq (congrArg Prod.fst h1)
      · exact List.rel_of_sorted_cons hsorted x h1
    have hbestS : best ∈ best :: restS := List.mem_cons_self best restS
    have hbestF : best ∈ (snaps.filter (fun p => decide (0 < p.2))).map (fun p => (p.2, p.1)) := by
      rw [← hS, sortDesc] at hbestS
      exact hperm.mem_iff.mp hbestS
    obtain ⟨q, hqfil, hq⟩ := List.mem_map.mp hbestF
    have hqsnaps : q ∈ snaps := (List.mem_filter.mp hqfil).1
    have hq1 : q.2 = best.1 := by rw [← hq]
    have hq2 : q.1 = best.2 := by rw [← hq]
    have hmaxsnaps : ∀ p ∈ snaps, p.2 ≤ best.1 := by
      intro p hp
      by_cases hpos : (0 : Int) < p.2
      · exact hmax (p.2, p.1) (List.mem_map.mpr ⟨p, List.mem_filter.mpr ⟨hp, by simp [hpos]⟩, rfl⟩)
      · exact le_trans (le_of_not_lt hpos) (le_trans (le_of_lt hp0pos) (hmax _ hp0F))
    have hsizebest : (content.length : Int) ≤ best.1 := le_trans hp0le (hmaxsnaps p0 hp0)
    have hsum : (content.length : Int) ≤ (snaps.map (fun p => p.2)).sum := by
      refine le_trans hp0le ?_
      refine List.single_le_sum ?_ p0.2 (List.mem_map.mpr ⟨p0, hp0, rfl⟩)
      intro x hx
      obtain ⟨p, hp, rfl⟩ := List.mem_map.mp hx
      exact hnonneg p hp
    have hcap : content.length ≤ lookupCap actual best.2 := by
      have h5 : best.1 ≤ (lookupCap actual best.2 : Int) := by
        rw [← hq1, ← hq2]; exact honest q hqsnaps
      exact_mod_cast le_trans hsizebest h5
    refine ⟨best.2, ⟨q, hqsnaps, hq2, by rw [hq1]; exact hmaxsnaps⟩, ?_⟩
    simp only [upload_file]
    rw [if_neg (not_lt.mpr hsum), hS]
    dsimp only []
    rw [if_pos hsizebest, if_pos hcap]
    rfl

/-- C7 witness: one backend with 5 free bytes hosting a 3-byte file. -/
theorem c7_witness :
    ∃ b, (∃ q ∈ [(("x" : String), (5 : Int))], q.1 = b ∧
        ∀ p ∈ [(("x" : String), (5 : Int))], p.2 ≤ q.2) ∧
      upload_file [("x",5)] [("x",5)] [] MDoc.missing [1,2,3] "f"
        = (Outcome.success,
           [] ++ [⟨b, "f" ++ "@" ++ b, "f", [1,2,3]⟩],
           MDoc.records (loadMeta MDoc.missing ++ [⟨"f", [⟨"f", "f" ++ "@" ++ b, b⟩]⟩])) :=
  c7_whole_file_fast_path [("x",5)] [("x",5)] [] MDoc.missing [1,2,3] "f"
    (by decide) (by decide) (by decide) (by decide)

/-- First iteration of the chunk loop in the C6 scenario: ascending order
picks B (5 MiB free), writes the 5 MiB chunk `f_part1`, zeroes B's live
entry, and advances the offset to 5242880. -/
theorem c6_step1 (content : List Nat) (h : content.length = 12582912) (fuel : Nat) :
    chunkLoop "f" content (fuel + 1) [("A",10485760),("B",5242880)]
      [(10485760,"A"),(5242880,"B")] 0 0 [] []
    = chunkLoop "f" content fuel [("A",10485760),("B",0)] [(0,"B"),(10485760,"A")] 5242880 1
        [⟨"B","f_part1@B","f_part1",content.take 5242880⟩]
        [⟨"f_part1","f_part1@B","B"⟩] := by
  have hsel : selectPos (sortAsc [(10485760,"A"),(5242880,"B")])
      = some ([], (5242880,"B"), [(10485760,"A")]) := rfl
  have hcap : lookupCap [("A",10485760),("B",5242880)] "B" = 5242880 := rfl
  simp only [chunkLoop, h, hsel, hcap]
  norm_num
  rfl

/-- Second iteration of the chunk loop in the C6 scenario: B is skipped
(free 0), A receives the remaining 7 MiB as `f_part2`. -/
theorem c6_step2 (content : List Nat) (h : content.length = 12582912) (fuel : Nat) :
    chunkLoop "f" content (fuel + 1) [("A",10485760),("B",0)] [(0,"B"),(10485760,"A")] 5242880 1
        [⟨"B","f_part1@B","f_part1",content.take 5242880⟩]
        [⟨"f_part1","f_part1@B","B"⟩]
    = chunkLoop "f" content fuel [("A",3145728),("B",0)] [(0,"B"),(3145728,"A")] 12582912 2
        [⟨"B","f_part1@B","f_part1",content.take 5242880⟩,
         ⟨"A","f_part2@A","f_part2",(content.drop 5242880).take 7340032⟩]
        [⟨"f_part1","f_part1@B","B"⟩, ⟨"f_part2","f_part2@A","A"⟩] := by
  have hsel : selectPos (sortAsc [(0,"B"),(10485760,"A")])
      = some ([(0,"B")], (10485760,"A"), []) := rfl
  have hcap : lookupCap [("A",10485760),("B",0)] "A" = 10485760 := rfl
  simp only [chunkLoop, h, hsel, hcap]
  norm_num
  rfl

/-- Final iteration of the chunk loop in the C6 scenario: all 12 MiB are
placed, so the loop exits normally. -/
theorem c6_step3 (content : List Nat) (h : content.length = 12582912) (fuel : Nat)
    (actual : List (String × Nat)) (fs : List (Int × String))
    (written : List RObj) (chunks : List ChunkRec) :
    chunkLoop "f" content (fuel + 1) actual fs 12582912 2 written chunks
      = LoopRes.done written chunks := by
  simp only [chunkLoop, h]
  norm_num

/-- C6: the concrete drain-smallest-first scenario.  Backends A (10 MiB
free) and B (5 MiB free), a 12 MiB file: pre-flight passes, no single
backend fits, and the chunked path writes chunk 1 of 5242880 bytes to B,
then chunk 2 of 7340032 bytes to A, recording the two ChunkRecords in that
creation order. -/
theorem c6_drain_smallest_first (content : List Nat) (h : content.length = 12582912) :
    upload_file [("A", 10485760), ("B", 5242880)] [("A", 10485760), ("B", 5242880)]
        [] MDoc.missing content "f"
      = (Outcome.success,
         [⟨"B", "f_part1@B", "f_part1", content.take 5242880⟩,
          ⟨"A", "f_part2@A", "f_part2", (content.drop 5242880).take 7340032⟩],
         MDoc.records [⟨"f", [⟨"f_part1", "f_part1@B", "B"⟩, ⟨"f_part2", "f_part2@A", "A"⟩]⟩]) := by
  have hsort : sortDesc (([("A",(10485760:Int)),("B",5242880)].filter
        (fun p => decide (0 < p.2))).map (fun p => (p.2, p.1)))
      = [(10485760,"A"),(5242880,"B")] := rfl
  have hloop : chunkLoop "f" content (12582912 + 1) [("A",10485760),("B",5242880)]
        [(10485760,"A"),(5242880,"B")] 0 0 [] []
      = LoopRes.done
          [⟨"B","f_part1@B","f_part1",content.take 5242880⟩,
           ⟨"A","f_part2@A","f_part2",(content.drop 5242880).take 7340032⟩]
          [⟨"f_part1","f_part1@B","B"⟩, ⟨"f_part2","f_part2@A","A"⟩] := by
    rw [c6_step1 content h 12582912]
    rw [show (12582912 : Nat) = 12582911 + 1 from rfl]
    rw [c6_step2 content h 12582911]
    rw [show (12582911 : Nat) = 12582910 + 1 from rfl]
    exact c6_step3 content h 12582910 _ _ _ _
  simp only [upload_file, h, hsort]
  norm_num
  rw [hloop]
  rfl

/-- C6 witness: the scenario applied to a concrete 12 MiB file. -/
theorem c6_drain_smallest_first_witness :
    upload_file [("A", 10485760), ("B", 5242880)] [("A", 10485760), ("B", 5242880)]
        [] MDoc.missing (List.replicate 12582912 0) "f"
      = (Outcome.success,
         [⟨"B", "f_part1@B", "f_part1", (List.replicate 12582912 0).take 5242880⟩,
          ⟨"A", "f_part2@A", "f_part2", ((List.replicate 12582912 0).drop 5242880).take 7340032⟩],
         MDoc.records [⟨"f", [⟨"f_part1", "f_part1@B", "B"⟩, ⟨"f_part2", "f_part2@A", "A"⟩]⟩]) :=
  c6_drain_smallest_first (List.replicate 12582912 0) (by rw [List.length_replicate])
